import Mathlib

/-!
# Verification of the pixi.js display-object core

Shallow embedding of the transform/bounds/event core of the repository:

* `ObservablePoint` (src/core/math/ObservablePoint.js)
* `Rectangle` (src/core/math/shapes/Rectangle.js)
* `DisplayObject` (src/core/display/DisplayObject.js): transform/alpha
  propagation, `getBounds`/`getLocalBounds`, `destroy`, `setParent`, and the
  custom event emitter (`on`/`emit`/`removeListener`).
* the legacy prototype-based `DisplayObject` (src/unnamed/part_000) with its
  touch/gesture alias fan-out (`on`/`$on`/`removeListener`/`$removeListener`).

JavaScript numbers are modelled as integers (a faithful sub-model of the
IEEE doubles the claims exercise: only ring operations and equality tests
occur), handler/context object
identities as `Nat` tokens, and a thrown `TypeError` as `Option.none`
(`Option` is used monadically wherever the source can dereference `null`).
`undefined`-able arguments are modelled as `Option` values.
-/

namespace Pixi

/-! ## ObservablePoint (src/core/math/ObservablePoint.js) -/

/-- State of an `ObservablePoint`: the stored coordinates `_x`, `_y` and
whether a change callback `cb` is registered (`if(this.cb) this.cb.call(..)`
only fires when a callback is present).  Callback invocations are counted by
the operations below rather than executed. -/
structure ObservablePoint where
  _x : ℤ
  _y : ℤ
  hasCb : Bool
deriving DecidableEq, Repr

namespace ObservablePoint

/-- `set(x, y)`:
`const _x = x || 0; const _y = y || ((y !== 0) ? _x : 0);` followed by the
change-guarded store and callback.  `x`/`y` are `Option` because either
argument can be omitted (`undefined`).  Returns the new state and the number
of callback invocations (0 or 1). -/
def set (p : ObservablePoint) (x y : Option ℤ) : ObservablePoint × Nat :=
  let _x : ℤ := match x with
    | none => 0
    | some v => if v = 0 then 0 else v
  let _y : ℤ := match y with
    | none => _x
    | some v => if v = 0 then 0 else v
  if p._x ≠ _x ∨ p._y ≠ _y then
    ({ p with _x := _x, _y := _y }, if p.hasCb then 1 else 0)
  else
    (p, 0)

/-- `copy(point)`: change-guarded copy of both coordinates. -/
def copy (p : ObservablePoint) (qx qy : ℤ) : ObservablePoint × Nat :=
  if p._x ≠ qx ∨ p._y ≠ qy then
    ({ p with _x := qx, _y := qy }, if p.hasCb then 1 else 0)
  else
    (p, 0)

/-- The `x` property setter: change-guarded store of `_x`. -/
def setX (p : ObservablePoint) (v : ℤ) : ObservablePoint × Nat :=
  if p._x ≠ v then
    ({ p with _x := v }, if p.hasCb then 1 else 0)
  else
    (p, 0)

/-- The `y` property setter: change-guarded store of `_y`. -/
def setY (p : ObservablePoint) (v : ℤ) : ObservablePoint × Nat :=
  if p._y ≠ v then
    ({ p with _y := v }, if p.hasCb then 1 else 0)
  else
    (p, 0)

/-- One write through the point's mutating interface. -/
inductive Write where
  | setOp (x y : Option ℤ)
  | copyOp (qx qy : ℤ)
  | setXOp (v : ℤ)
  | setYOp (v : ℤ)
deriving DecidableEq, Repr

/-- Apply one write, returning the new state and the callback count. -/
def applyWrite (p : ObservablePoint) : Write → ObservablePoint × Nat
  | .setOp x y => p.set x y
  | .copyOp qx qy => p.copy qx qy
  | .setXOp v => p.setX v
  | .setYOp v => p.setY v

/-- Run a sequence of writes, accumulating the total callback count. -/
def runWrites (p : ObservablePoint) : List Write → ObservablePoint × Nat
  | [] => (p, 0)
  | w :: ws =>
    let (p', c) := applyWrite p w
    let (p'', c') := runWrites p' ws
    (p'', c + c')

/-- The stored value pair of the point. -/
def value (p : ObservablePoint) : ℤ × ℤ := (p._x, p._y)

/-- Number of writes in the sequence whose resulting stored value differs
from the value stored just before that write (the spec's
"distinct-value writes"). -/
def countChanges (p : ObservablePoint) : List Write → Nat
  | [] => 0
  | w :: ws =>
    let p' := (applyWrite p w).1
    (if p'.value ≠ p.value then 1 else 0) + countChanges p' ws

end ObservablePoint

/-! ## Rectangle (src/core/math/shapes/Rectangle.js) -/

/-- `Rectangle(x, y, width, height)`. -/
structure Rect where
  x : ℤ
  y : ℤ
  width : ℤ
  height : ℤ
deriving DecidableEq, Repr

/-- `Rectangle.EMPTY = new Rectangle(0, 0, 0, 0)`. -/
def Rect.EMPTY : Rect := ⟨0, 0, 0, 0⟩

/-! ## Transform and Bounds

`DisplayObject.js` imports `Transform`/`TransformStatic` and `Bounds`, whose
sources are not part of this repository snapshot; they are modelled from the
spec (§4.1, §4.3) at the granularity the display-object code observes. -/

/-- A 2×3 affine matrix `| a c tx | / | b d ty |`. -/
structure Matrix where
  a : ℤ
  b : ℤ
  c : ℤ
  d : ℤ
  tx : ℤ
  ty : ℤ
deriving DecidableEq, Repr

/-- The identity matrix. -/
def Matrix.identity : Matrix := ⟨1, 0, 0, 1, 0, 0⟩

/-- Affine composition `parentWorld ∘ local` (apply `local` first). -/
def Matrix.compose (pw lt : Matrix) : Matrix :=
  { a := pw.a * lt.a + pw.c * lt.b
    b := pw.b * lt.a + pw.d * lt.b
    c := pw.a * lt.c + pw.c * lt.d
    d := pw.b * lt.c + pw.d * lt.d
    tx := pw.a * lt.tx + pw.c * lt.ty + pw.tx
    ty := pw.b * lt.tx + pw.d * lt.ty + pw.ty }

/-- Modelled from the spec: a `Transform` holds the local and world matrices
(§4.1).  The recomputation of the local matrix from
position/scale/rotation/skew/pivot happens inside the missing `Transform.js`;
the stored `localTransform` here stands for that recomputed local matrix,
which is all the display-object code reads. -/
structure Xform where
  localTransform : Matrix
  worldTransform : Matrix
deriving DecidableEq, Repr

/-- A freshly constructed transform (both matrices identity). -/
def Xform.initial : Xform := ⟨Matrix.identity, Matrix.identity⟩

/-- Modelled from the spec: `transform.updateTransform(parentTransform)`
sets `world := parent.world ∘ local` (§4.1). -/
def Xform.updateTransform (t parent : Xform) : Xform :=
  { t with worldTransform := Matrix.compose parent.worldTransform t.localTransform }

/-- Modelled from the spec: the `Bounds` accumulator (§4.3) — a min/max
envelope (`none` = the cleared/empty sentinel) plus the monotonically
increasing `updateID` bumped by `updateTransform`. -/
structure BoundsObj where
  envelope : Option (ℤ × ℤ × ℤ × ℤ)
  updateID : Int
deriving DecidableEq, Repr

/-- A freshly constructed `Bounds`: cleared envelope, `updateID = 0`. -/
def BoundsObj.initial : BoundsObj := ⟨none, 0⟩

/-- Modelled from the spec: `getRectangle(rect)` materialises the envelope,
returning an empty rectangle when the envelope was never touched (§4.3). -/
def BoundsObj.getRectangle : BoundsObj → Rect
  | ⟨none, _⟩ => Rect.EMPTY
  | ⟨some (ax, ay, bx, cy), _⟩ => ⟨ax, ay, bx - ax, cy - ay⟩

/-- Modelled from the spec: re-accumulate the envelope from the node's own
content rectangle (the subclass `calculateBounds` body, §4.3). -/
def BoundsObj.setFrom (b : BoundsObj) (r : Rect) : BoundsObj :=
  { b with envelope := some (r.x, r.y, r.x + r.width, r.y + r.height) }

/-! ## DisplayObject node state (src/core/display/DisplayObject.js) -/

/-- Per-node state of a `DisplayObject`.  `transform` and `bounds` are
`Option` because `destroy()` sets them to `null`.  `ownRect` is the content
rectangle consumed by the (subclass-provided) `calculateBounds`. -/
structure NodeCore where
  transform : Option Xform
  alpha : ℤ
  worldAlpha : ℤ
  bounds : Option BoundsObj
  _boundsID : Int
  _lastBoundsID : Int
  allowGetBounds : Bool
  destroyed : Bool
  ownRect : Rect
deriving DecidableEq, Repr

/-- `new DisplayObject()`: fresh transform and bounds, `alpha = 1`,
`worldAlpha = 1`, `_boundsID = 0`, `_lastBoundsID = -1`,
`allowGetBounds = true`. -/
def NodeCore.new : NodeCore :=
  { transform := some Xform.initial
    alpha := 1
    worldAlpha := 1
    bounds := some BoundsObj.initial
    _boundsID := 0
    _lastBoundsID := -1
    allowGetBounds := true
    destroyed := false
    ownRect := Rect.EMPTY }

/-- `updateTransform()` against a given parent node:
`this.transform.updateTransform(this.parent.transform)` (throws on a `null`
transform on either side), `this.worldAlpha = this.alpha * this.parent.worldAlpha`,
`this._bounds.updateID++` (throws on `null` `_bounds`).
`none` models the thrown `TypeError`. -/
def NodeCore.updateTransformWith (n p : NodeCore) : Option NodeCore := do
  let t ← n.transform
  let pt ← p.transform
  let t' := t.updateTransform pt
  let b ← n.bounds
  some { n with
          transform := some t'
          worldAlpha := n.alpha * p.worldAlpha
          bounds := some { b with updateID := b.updateID + 1 } }

/-- The transform-only refresh used by `_recursivePostUpdateTransform`:
`this.transform.updateTransform(parentTransform)`. -/
def NodeCore.postUpdate (n : NodeCore) (pt : Xform) : Option NodeCore := do
  let t ← n.transform
  some { n with transform := some (t.updateTransform pt) }

/-- A display object together with its ancestor chain, immediate parent
first (`[]` = `parent === null`), and the lazily created
`tempDisplayObjectParent`.  Chains (rather than general trees) are all the
verified claims need; parents are held by value. -/
structure DObj where
  core : NodeCore
  ancestors : List NodeCore
  tempParent : Option NodeCore
deriving DecidableEq, Repr

namespace DObj

/-- A freshly constructed, parentless `DisplayObject`. -/
def new : DObj := ⟨NodeCore.new, [], none⟩

/-- The `_tempDisplayObjectParent` getter: lazily create a fresh
`DisplayObject` and cache it on the node. -/
def getTempParent (d : DObj) : DObj × NodeCore :=
  match d.tempParent with
  | some t => (d, t)
  | none => ({ d with tempParent := some NodeCore.new }, NodeCore.new)

/-- `updateTransform()` at the node level: dereferences `this.parent`
(throws when `parent === null`). -/
def updateTransform (d : DObj) : Option DObj := do
  let p ← d.ancestors.head?
  let c ← d.core.updateTransformWith p
  some { d with core := c }

/-- `_recursivePostUpdateTransform` applied along an ancestor list (deepest
ancestors processed first): each node's transform is refreshed against the
just-refreshed parent, the root against a fresh temp parent's identity
transform. -/
def updateChain : List NodeCore → Option (List NodeCore)
  | [] => some []
  | n :: rest => do
    let rest' ← updateChain rest
    match rest'.head? with
    | some p => do
      let pt ← p.transform
      let n' ← n.postUpdate pt
      some (n' :: rest')
    | none => do
      let n' ← n.postUpdate Xform.initial
      some (n' :: rest')

/-- `_recursivePostUpdateTransform()` on the node: refresh every ancestor
root-first, then this node's transform against its parent's transform; a
parentless node refreshes against `_tempDisplayObjectParent.transform`. -/
def recursivePostUpdateTransform (d : DObj) : Option DObj :=
  match d.ancestors with
  | [] => do
    let (d1, temp) := d.getTempParent
    let tt ← temp.transform
    let c ← d1.core.postUpdate tt
    some { d1 with core := c }
  | _ :: _ => do
    let ps' ← updateChain d.ancestors
    let p ← ps'.head?
    let pt ← p.transform
    let c ← d.core.postUpdate pt
    some { d with ancestors := ps', core := c }

/-- Modelled from the spec: `calculateBounds()` is provided by `Node`
subtypes (not in this snapshot); per §4.3 it re-runs the bounds accumulation
of the node's content into `_bounds` and records `_lastBoundsID` so that
`getBounds` only re-runs it when the IDs differ.  Throws on a `null`
`_bounds` (destroyed node). -/
def calculateBounds (d : DObj) : Option DObj := do
  let b ← d.core.bounds
  some { d with core :=
    { d.core with
        bounds := some (b.setFrom d.core.ownRect)
        _lastBoundsID := d.core._boundsID } }

/-- `getBounds(skipUpdate, rect)`.  Returns the (possibly updated) node and
the rectangle; `none` models a thrown `TypeError`.
Mirrors the source: the `allowGetBounds === false` short-circuit to
`Rectangle.EMPTY`; for `!skipUpdate` either the temp-parent substitution
(parentless) or `_recursivePostUpdateTransform(); updateTransform()`; then
the `_boundsID !== _lastBoundsID` guarded `calculateBounds()`; finally
`this._bounds.getRectangle(rect)`. -/
def getBounds (d : DObj) (skipUpdate : Bool) : Option (DObj × Rect) :=
  if d.core.allowGetBounds = false then
    some (d, Rect.EMPTY)
  else do
    let d1 ←
      if skipUpdate then some d
      else
        match d.ancestors with
        | [] => do
          -- this.parent = this._tempDisplayObjectParent; this.updateTransform(); this.parent = null
          let (da, temp) := d.getTempParent
          let c ← da.core.updateTransformWith temp
          some { da with core := c }
        | _ :: _ => do
          let da ← d.recursivePostUpdateTransform
          da.updateTransform
    let d2 ←
      if d1.core._boundsID ≠ d1.core._lastBoundsID then d1.calculateBounds
      else some d1
    let b ← d2.core.bounds
    some (d2, b.getRectangle)

/-- The `worldTransform` getter: `this.transform.worldTransform` — throws
(`none`) when `transform` is `null`. -/
def readWorldTransform (d : DObj) : Option Matrix := do
  let t ← d.core.transform
  some t.worldTransform

/-- `getLocalBounds(rect)`: save `transform`/`parent`, detach the parent and
substitute the temp parent's transform, call `getBounds(false, rect)`,
restore `parent` and `transform`.  `none` models an exception propagating
out of the inner `getBounds` (in which case the source performs no
restoration either). -/
def getLocalBounds (d : DObj) : Option (DObj × Rect) := do
  let transformRef := d.core.transform
  let parentRef := d.ancestors
  let gt := d.getTempParent
  let tt ← gt.2.transform
  let d1 : DObj :=
    { gt.1 with ancestors := [], core := { gt.1.core with transform := some tt } }
  let res ← d1.getBounds false
  some ({ res.1 with ancestors := parentRef
                     core := { res.1.core with transform := transformRef } }, res.2)

/-- `destroy()`: remove the node from its parent, destroy and `null` out
`transform`, `null` out `parent` and `_bounds`, set `_destroyed`.  (Listener
removal acts on the event registry, modelled separately.)  The function is
total: a second call finds `transform === null` and skips
`transform.destroy()`, so it does not throw. -/
def destroy (d : DObj) : DObj :=
  { d with
      ancestors := []
      core := { d.core with
                  transform := none
                  bounds := none
                  destroyed := true } }

end DObj

/-! ## Top-down transform pass over a chain (for the worldAlpha invariant)

A chain of nodes, root first.  The pass calls `updateTransform` once per
node top-down; the parentless root is updated through the documented
temp-parent substitution (a fresh `DisplayObject`, `worldAlpha = 1`,
identity world transform), exactly as `getBounds`/`toGlobal` do for a root. -/

/-- Update every node of `chain` (each against the already-updated previous
node) starting from parent state `p`. -/
def updatePassFrom (p : NodeCore) : List NodeCore → Option (List NodeCore)
  | [] => some []
  | n :: rest => do
    let n' ← n.updateTransformWith p
    let rest' ← updatePassFrom n' rest
    some (n' :: rest')

/-- The top-down `updateTransform` pass over a root-first chain. -/
def updatePass (chain : List NodeCore) : Option (List NodeCore) :=
  updatePassFrom NodeCore.new chain

/-! ## setParent (src/core/display/DisplayObject.js) -/

/-- The argument handed to `setParent`, as the source observes it: possibly
`null`/`undefined` (`Option.none`), otherwise an object with the truthiness
of its `addChild` member and a child list. -/
structure ContainerArg where
  hasAddChild : Bool
  children : List Nat
deriving DecidableEq, Repr

/-- Modelled from the spec: `Container.addChild(child)` (Container is not in
this snapshot) appends the child to the container's ordered child list and
makes the container the child's parent (§4.4/§9).  Only the append is
observable here. -/
def ContainerArg.addChild (c : ContainerArg) (childId : Nat) : ContainerArg :=
  { c with children := c.children ++ [childId] }

/-- `setParent(container)`: throw `'setParent: Argument must be a Container'`
when `!container || !container.addChild`; otherwise `container.addChild(this)`
and return the container. -/
def setParent (selfId : Nat) (container : Option ContainerArg) :
    Except String ContainerArg :=
  match container with
  | none => .error "setParent: Argument must be a Container"
  | some c =>
    if !c.hasAddChild then .error "setParent: Argument must be a Container"
    else .ok (c.addChild selfId)

/-! ## The `_events` registry

`this._events` is a plain object keyed by event name; each key holds either
a single `EE` record or an array of them.  It is modelled as an association
list with replace-on-assign / delete semantics. -/

/-- Association list keyed by event-name strings. -/
abbrev EvMap (α : Type) : Type := List (String × α)

namespace EvMap

/-- Property read `this._events[evt]`. -/
def lookup {α : Type} : EvMap α → String → Option α
  | [], _ => none
  | (k, v) :: r, e => if k = e then some v else lookup r e

/-- Property write `this._events[evt] = v`. -/
def set {α : Type} : EvMap α → String → α → EvMap α
  | [], e, v => [(e, v)]
  | (k, w) :: r, e, v => if k = e then (e, v) :: r else (k, w) :: set r e v

/-- `delete this._events[evt]`. -/
def del {α : Type} : EvMap α → String → EvMap α
  | [], _ => []
  | (k, w) :: r, e => if k = e then r else (k, w) :: del r e

end EvMap

/-! ## DisplayObject event emitter (src/core/display/DisplayObject.js)

`on` / `removeListener` / `emit` as overridden on the ES6 class.  Handlers
and contexts are identified by `Nat` tokens; invoking a handler is recorded
on an invocation list rather than executed. -/

/-- The `EE` listener record (`function EE(fn, context, once)` plus the
`capture`/`priority` fields that `on` assigns). -/
structure EE where
  fn : Nat
  context : Nat
  once : Bool
  bubble : Bool
  capture : Bool
  priority : Int
deriving DecidableEq, Repr

/-- An `_events[evt]` slot: a single listener or an array of them. -/
inductive Entry where
  | single (l : EE)
  | multi (ls : List EE)
deriving DecidableEq, Repr

/-- The listener registry `this._events`. -/
abbrev Registry := EvMap Entry

/-- The listeners stored under `e`, as a list (the iteration snapshot
`emit` reads). -/
def Registry.snapshot (r : Registry) (e : String) : List EE :=
  match EvMap.lookup r e with
  | none => []
  | some (.single l) => [l]
  | some (.multi ls) => ls

/-- Insert `x` into a list already sorted by descending `priority`, after
all entries of greater-or-equal priority (stable). -/
def insertByPrio (x : EE) : List EE → List EE
  | [] => [x]
  | y :: ys => if x.priority ≥ y.priority then x :: y :: ys else y :: insertByPrio x ys

/-- The `eventAry.sort(function(a, b) { return b.priority - a.priority; })`
call: stable sort by descending priority. -/
def sortByPrio : List EE → List EE
  | [] => []
  | x :: xs => insertByPrio x (sortByPrio xs)

/-- `on(event, fn, capture, priority)` (the class override, line 703):
defaults `capture` to `false`, builds `new EE(fn, this)` with the
`capture`/`priority` fields, inserts it — single slot on first registration,
promoted to an array on the second distinct `fn`; an array is scanned for a
duplicate `fn` (no push when found) and then re-sorted by descending
priority. -/
def DOon (r : Registry) (event : String) (fn : Nat) (capture : Option Bool)
    (priority : Option Int) (selfCtx : Nat) : Registry :=
  let cap := match capture with
    | none => false
    | some c => c
  let listener : EE :=
    { fn := fn, context := selfCtx, once := false, bubble := false
      capture := cap
      priority := match priority with
        | none => 0
        | some p => p }
  match EvMap.lookup r event with
  | none => EvMap.set r event (.single listener)
  | some (.multi ls) =>
    let ls' := if ls.any (fun e => e.fn = fn) then ls else ls ++ [listener]
    EvMap.set r event (.multi (sortByPrio ls'))
  | some (.single old) =>
    if old.fn ≠ listener.fn then
      EvMap.set r event (.multi (sortByPrio [old, listener]))
    else
      r

/-- The keep-condition of `removeListener`'s filter:
`listeners[i].fn !== fn || (once && !listeners[i].once) || (!listeners[i].capture === capture)`
(a `capture` of `undefined` makes the last comparison `false`, since a
boolean is never `===` to `undefined`). -/
def keepListener (l : EE) (fn : Nat) (capture : Option Bool) (once : Bool) : Bool :=
  l.fn ≠ fn || (once && !l.once) ||
    (match capture with
     | none => false
     | some c => (!l.capture) = c)

/-- `removeListener(event, fn, capture, once)` (line 644): no entry → return;
a missing `fn` → early `return` leaving the registry untouched (the guarded
no-op); otherwise filter by the keep-condition, collapsing a one-element
result back to a single slot and deleting the key when nothing is left. -/
def DOremoveListener (r : Registry) (event : String) (fn : Option Nat)
    (capture : Option Bool) (once : Bool) : Registry :=
  match EvMap.lookup r event with
  | none => r
  | some entry =>
    match fn with
    | none => r
    | some f =>
      let evs : List EE :=
        match entry with
        | .single l => if keepListener l f capture once then [l] else []
        | .multi ls => ls.filter (fun l => keepListener l f capture once)
      match evs with
      | [] => EvMap.del r event
      | [l] => EvMap.set r event (.single l)
      | ls => EvMap.set r event (.multi ls)

/-- The `emit` payload `a1` as the source observes it: absent (`undefined`),
a non-object primitive value (with its truthiness), or an object/function
with an optional `capture` field and a `stopImmediate` flag. -/
inductive Payload where
  | undef
  | prim (truthy : Bool)
  | obj (capture : Option Bool) (stopImmediate : Bool)
deriving DecidableEq, Repr

namespace Payload

/-- JavaScript truthiness of `a1`. -/
def truthy : Payload → Bool
  | .undef => false
  | .prim t => t
  | .obj _ _ => true

/-- The value of `a1.capture` (`none` = `undefined`; reading a property of
a primitive yields `undefined`). -/
def captureField : Payload → Option Bool
  | .obj c _ => c
  | _ => none

/-- Whether `a1.stopImmediate === true`. -/
def stopImm : Payload → Bool
  | .obj _ s => s
  | _ => false

end Payload

/-- The listener-phase filter of `emit`:
`listeners[i].capture === a1.capture || a1.capture === undefined`. -/
def matchesCapture (l : EE) (a1 : Payload) : Bool :=
  match a1.captureField with
  | none => true
  | some c => l.capture = c

/-- Result of an `emit` call: the registry after `once` removals, the
payload after the capture-defaulting mutation, the handler tokens invoked in
order, and the boolean `emit` returns. -/
structure EmitResult where
  registry : Registry
  payload : Payload
  invoked : List Nat
  returned : Bool
deriving DecidableEq, Repr

/-- The array-iteration loop of `emit`: for each listener of the snapshot —
remove it when `once`; `break` when a truthy payload has
`stopImmediate === true`; otherwise invoke it when the payload is
`undefined` or its `capture` passes the phase filter. -/
def emitLoop (r : Registry) (event : String) (a1 : Payload) :
    List EE → Registry × List Nat
  | [] => (r, [])
  | l :: rest =>
    let r1 := if l.once then DOremoveListener r event (some l.fn) none true else r
    if a1.truthy && a1.stopImm then (r1, [])
    else
      let inv : List Nat :=
        if a1 ≠ .undef then (if matchesCapture l a1 then [l.fn] else []) else [l.fn]
      let rec' := emitLoop r1 event a1 rest
      (rec'.1, inv ++ rec'.2)

/-- `emit(event, a1, ...)` (the class override, line 747): first the
mutation `if (a1 && a1.capture === undefined && (typeof a1 === "object" ||
typeof a1 === "function")) a1.capture = false;` on the caller's payload;
then return `false` when no listeners are registered; then either the
single-listener fast path or the array loop. -/
def DOemit (r : Registry) (event : String) (a1 : Payload) : EmitResult :=
  let a1 : Payload :=
    match a1 with
    | .obj none st => .obj (some false) st
    | p => p
  match EvMap.lookup r event with
  | none => ⟨r, a1, [], false⟩
  | some (.single l) =>
    let r1 := if l.once then DOremoveListener r event (some l.fn) none true else r
    let inv : List Nat :=
      if a1 ≠ .undef then (if matchesCapture l a1 then [l.fn] else []) else [l.fn]
    ⟨r1, a1, inv, true⟩
  | some (.multi ls) =>
    let res := emitLoop r event a1 ls
    ⟨res.1, a1, res.2, true⟩

/-! ## Legacy prototype DisplayObject event emitter (src/unnamed/part_000)

`$on` / `on` / `$removeListener` / `removeListener` / `emit` from the
prototype-based file.  `on`/`removeListener` are the touch/gesture alias
fan-out wrappers over `$on`/`$removeListener`.  The `TouchEvent.*` alias
names are runtime-assigned strings, passed in as a configuration record. -/

namespace P0

/-- The legacy `EE` record: the constructor sets `capture := false`; `$on`
then assigns `useCapture` (kept verbatim, possibly `undefined`) and
`priority`. -/
structure PEE where
  fn : Nat
  context : Nat
  once : Bool
  bubble : Bool
  capture : Bool
  useCapture : Option Bool
  priority : Int
deriving DecidableEq, Repr

/-- An `_events[evt]` slot of the legacy emitter. -/
inductive PEntry where
  | single (l : PEE)
  | multi (ls : List PEE)
deriving DecidableEq, Repr

/-- The legacy listener registry. -/
abbrev PRegistry := EvMap PEntry

/-- The listeners stored under `e`. -/
def snapshot (r : PRegistry) (e : String) : List PEE :=
  match EvMap.lookup r e with
  | none => []
  | some (.single l) => [l]
  | some (.multi ls) => ls

/-- Stable insertion into a list sorted by descending priority. -/
def insertByPrio (x : PEE) : List PEE → List PEE
  | [] => [x]
  | y :: ys => if x.priority ≥ y.priority then x :: y :: ys else y :: insertByPrio x ys

/-- `sort(function(a, b) { return b.priority - a.priority; })`. -/
def sortByPrio : List PEE → List PEE
  | [] => []
  | x :: xs => insertByPrio x (sortByPrio xs)

/-- `$on(event, fn, useCapture, priority)`: first registration fills the
single slot; an array entry is scanned for a duplicate `fn` and (possibly)
pushed; a single-slot entry with a distinct `fn` is promoted to a
two-element array.  The unguarded trailing `this._events[evt].sort(...)`
then runs: on an array it sorts by descending priority, but when the entry
is still a single `EE` (same `fn` re-registered) it throws a `TypeError`
(`sort` is not a function), modelled as `none`.

`mkListener` is the listener record `$on` builds:
`var listener = new EE(fn, this); listener.useCapture = useCapture;
listener.priority = priority || 0;`. -/
def mkListener (fn : Nat) (selfCtx : Nat) (useCapture : Option Bool)
    (priority : Option Int) : PEE :=
  { fn := fn, context := selfCtx, once := false, bubble := false
    capture := false
    useCapture := useCapture
    priority := match priority with
      | none => 0
      | some p => p }

/-- `$on`: see `mkListener`'s doc comment above for the shared behaviour
description. -/
def dollarOn (r : PRegistry) (event : String) (fn : Nat) (useCapture : Option Bool)
    (priority : Option Int) (selfCtx : Nat) : Option PRegistry :=
  let listener : PEE := mkListener fn selfCtx useCapture priority
  match EvMap.lookup r event with
  | none => some (EvMap.set r event (.single listener))
  | some (.multi ls) =>
    let ls' := if ls.any (fun e => e.fn = fn) then ls else ls ++ [listener]
    some (EvMap.set r event (.multi (sortByPrio ls')))
  | some (.single old) =>
    if old.fn ≠ fn then
      some (EvMap.set r event (.multi (sortByPrio [old, listener])))
    else
      none

/-- The runtime-assigned `TouchEvent` alias constants the fan-out compares
against. -/
structure TouchCfg where
  TOUCH_BEGIN : String
  TOUCH_MOVE : String
  TOUCH_END : String
  TAP : String
  TOUCH_END_OUDSIDE : String
deriving DecidableEq, Repr

/-- The pair of primitive event names an alias fans out to, following the
`if`/`else if` chain of `on`/`removeListener` (`none` = not an alias). -/
def aliasPair (cfg : TouchCfg) (event : String) : Option (String × String) :=
  if event = cfg.TOUCH_BEGIN then some ("mousedown", "touchstart")
  else if event = cfg.TOUCH_MOVE then some ("mousemove", "touchmove")
  else if event = cfg.TOUCH_END then some ("mouseup", "touchend")
  else if event = cfg.TAP then some ("click", "tap")
  else if event = cfg.TOUCH_END_OUDSIDE then some ("mouseupoutside", "touchendoutside")
  else none

/-- `on(event, fn, useCapture, priority)` (line 706): an alias name is
registered under both of its primitive names via `$on`, anything else goes
to `$on` directly. -/
def onEvent (cfg : TouchCfg) (r : PRegistry) (event : String) (fn : Nat)
    (useCapture : Option Bool) (priority : Option Int) (selfCtx : Nat) :
    Option PRegistry :=
  if event = cfg.TOUCH_BEGIN then do
    let r1 ← dollarOn r "mousedown" fn useCapture priority selfCtx
    dollarOn r1 "touchstart" fn useCapture priority selfCtx
  else if event = cfg.TOUCH_MOVE then do
    let r1 ← dollarOn r "mousemove" fn useCapture priority selfCtx
    dollarOn r1 "touchmove" fn useCapture priority selfCtx
  else if event = cfg.TOUCH_END then do
    let r1 ← dollarOn r "mouseup" fn useCapture priority selfCtx
    dollarOn r1 "touchend" fn useCapture priority selfCtx
  else if event = cfg.TAP then do
    let r1 ← dollarOn r "click" fn useCapture priority selfCtx
    dollarOn r1 "tap" fn useCapture priority selfCtx
  else if event = cfg.TOUCH_END_OUDSIDE then do
    let r1 ← dollarOn r "mouseupoutside" fn useCapture priority selfCtx
    dollarOn r1 "touchendoutside" fn useCapture priority selfCtx
  else
    dollarOn r event fn useCapture priority selfCtx

/-- The keep-condition of `$removeListener`'s filter:
`listeners[i].fn !== fn || (once && !listeners[i].once) ||
(context && listeners[i].context !== context)`. -/
def keepListener (l : PEE) (fn : Nat) (context : Option Nat) (once : Bool) : Bool :=
  l.fn ≠ fn || (once && !l.once) ||
    (match context with
     | none => false
     | some c => l.context ≠ c)

/-- `$removeListener(event, fn, context, once)` (line 731): no entry →
return; missing `fn` → early `return` leaving the registry untouched;
otherwise filter, collapse, or delete the key. -/
def dollarRemoveListener (r : PRegistry) (event : String) (fn : Option Nat)
    (context : Option Nat) (once : Bool) : PRegistry :=
  match EvMap.lookup r event with
  | none => r
  | some entry =>
    match fn with
    | none => r
    | some f =>
      let evs : List PEE :=
        match entry with
        | .single l => if keepListener l f context once then [l] else []
        | .multi ls => ls.filter (fun l => keepListener l f context once)
      match evs with
      | [] => EvMap.del r event
      | [l] => EvMap.set r event (.single l)
      | ls => EvMap.set r event (.multi ls)

/-- `removeListener(event, fn, context, once)` (line 774): an alias name is
removed from both of its primitive names via `$removeListener`, anything
else goes to `$removeListener` directly. -/
def removeListener (cfg : TouchCfg) (r : PRegistry) (event : String)
    (fn : Option Nat) (context : Option Nat) (once : Bool) : PRegistry :=
  if event = cfg.TOUCH_BEGIN then
    dollarRemoveListener (dollarRemoveListener r "mousedown" fn context once)
      "touchstart" fn context once
  else if event = cfg.TOUCH_MOVE then
    dollarRemoveListener (dollarRemoveListener r "mousemove" fn context once)
      "touchmove" fn context once
  else if event = cfg.TOUCH_END then
    dollarRemoveListener (dollarRemoveListener r "mouseup" fn context once)
      "touchend" fn context once
  else if event = cfg.TAP then
    dollarRemoveListener (dollarRemoveListener r "click" fn context once)
      "tap" fn context once
  else if event = cfg.TOUCH_END_OUDSIDE then
    dollarRemoveListener (dollarRemoveListener r "mouseupoutside" fn context once)
      "touchendoutside" fn context once
  else
    dollarRemoveListener r event fn context once

/-- The array-iteration loop of the legacy `emit`: remove `once` listeners
(through the alias-aware `removeListener`), `break` on
`a1 && a1.stopImmediate === true`, and for a truthy `a1` invoke only when
`listeners[i].useCapture === a1.capture` (`undefined === undefined` counts
as a match); a falsy `a1` invokes unconditionally. -/
def emitLoop (cfg : TouchCfg) (r : PRegistry) (event : String) (a1 : Payload) :
    List PEE → PRegistry × List Nat
  | [] => (r, [])
  | l :: rest =>
    let r1 := if l.once then removeListener cfg r event (some l.fn) none true else r
    if a1.truthy && a1.stopImm then (r1, [])
    else
      let inv : List Nat :=
        if a1.truthy then
          (if l.useCapture = a1.captureField then [l.fn] else [])
        else [l.fn]
      let rec' := emitLoop cfg r1 event a1 rest
      (rec'.1, inv ++ rec'.2)

/-- Result of a legacy `emit` call (the legacy `emit` performs no payload
mutation, so only the registry, the invocation list and the returned boolean
are recorded). -/
structure EmitResult' where
  registry : PRegistry
  invoked : List Nat
  returned : Bool
deriving DecidableEq, Repr

/-- The legacy `emit(event, a1, ...)` (line 596): no capture-defaulting
mutation; `false` when no listeners; single-listener fast path — for a
truthy `a1` it invokes only when `listeners.capture === a1.capture` (the
constructor-set `capture`, always `false`, never the `useCapture` field) —
otherwise the array loop. -/
def emit (cfg : TouchCfg) (r : PRegistry) (event : String) (a1 : Payload) :
    EmitResult' :=
  match EvMap.lookup r event with
  | none => ⟨r, [], false⟩
  | some (.single l) =>
    let r1 := if l.once then removeListener cfg r event (some l.fn) none true else r
    let inv : List Nat :=
      if a1.truthy then
        (if a1.captureField = some l.capture then [l.fn] else [])
      else [l.fn]
    ⟨r1, inv, true⟩
  | some (.multi ls) =>
    let res := emitLoop cfg r event a1 ls
    ⟨res.1, res.2, true⟩

end P0

/-! ## Concrete fixtures used by witnesses and counterexamples -/

/-- A live node whose `worldAlpha` (5) differs from its `alpha` (2), as
after an `updateTransform` under a parent with `worldAlpha` different
from 1. -/
def dEx4 : DObj :=
  { DObj.new with core :=
      { DObj.new.core with alpha := 2, worldAlpha := 5, ownRect := ⟨1, 2, 3, 4⟩ } }

/-- The node state `getLocalBounds` leaves behind on `dEx4`. -/
def dEx4Out : DObj := ((DObj.getLocalBounds dEx4).getD (dEx4, Rect.EMPTY)).1

/-- The rectangle `getLocalBounds` returns on `dEx4`. -/
def dEx4OutRect : Rect := ((DObj.getLocalBounds dEx4).getD (dEx4, Rect.EMPTY)).2

/-- A three-node chain (root first) with alphas 2, 3, 4. -/
def chainEx : List NodeCore :=
  [{ NodeCore.new with alpha := 2 }, { NodeCore.new with alpha := 3 },
   { NodeCore.new with alpha := 4 }]

/-- The chain state after the top-down `updateTransform` pass. -/
def chainExOut : List NodeCore := (updatePass chainEx).getD []

/-- Concrete `TouchEvent` alias values (the pointer names assigned in
test/index.js, plus a TAP value). -/
def cfgEx : P0.TouchCfg :=
  ⟨"pointerdown", "pointermove", "pointerup", "tapAlias", "pointerupoutside"⟩

/-- The registry after registering handler 7 on the TAP alias. -/
def rTap : P0.PRegistry :=
  (P0.onEvent cfgEx [] "tapAlias" 7 (some true) (some 3) 0).getD []

/-- A registry holding a capture listener (handler 1) and a non-capture
listener (handler 2) under `"evt"`. -/
def rCap : Registry :=
  DOon (DOon [] "evt" 1 (some true) none 0) "evt" 2 (some false) none 0

/-- The registry a fresh alias registration produces: one single-listener
slot under each of the two primitive event names. -/
def P0.fanoutRegistry (r : P0.PRegistry) (p1 p2 : String) (fn : Nat) (ctx : Nat)
    (cap : Option Bool) (pri : Option Int) : P0.PRegistry :=
  EvMap.set (EvMap.set r p1 (.single (P0.mkListener fn ctx cap pri))) p2
    (.single (P0.mkListener fn ctx cap pri))

/-- A registry where handler 7 already occupies `"mousedown"` as that event
name's single listener (registered through `$on`). -/
def rPre : P0.PRegistry :=
  (P0.dollarOn [] "mousedown" 7 (some true) (some 3) 0).getD []

/-! # Theorems

First some general lemmas about the association-list registry, then one
theorem (plus witness/counterexample where required) per claim. -/

theorem EvMap.lookup_set_self {α : Type} (r : EvMap α) (k : String) (v : α) :
    EvMap.lookup (EvMap.set r k v) k = some v := by
  induction r with
  | nil => simp [EvMap.set, EvMap.lookup]
  | cons kv t ih =>
    obtain ⟨a, b⟩ := kv
    by_cases h : a = k <;> simp [EvMap.set, EvMap.lookup, h, ih]

theorem EvMap.lookup_set_ne {α : Type} (r : EvMap α) (k k' : String) (v : α)
    (h : k' ≠ k) : EvMap.lookup (EvMap.set r k v) k' = EvMap.lookup r k' := by
  induction r with
  | nil => simp [EvMap.set, EvMap.lookup, Ne.symm h]
  | cons kv t ih =>
    obtain ⟨a, b⟩ := kv
    by_cases ha : a = k
    · subst ha
      simp [EvMap.set, EvMap.lookup, Ne.symm h]
    · by_cases ha' : a = k' <;> simp [EvMap.set, EvMap.lookup, ha, ha', ih, h]

theorem EvMap.del_set_self {α : Type} (r : EvMap α) (k : String) (v : α)
    (h : EvMap.lookup r k = none) : EvMap.del (EvMap.set r k v) k = r := by
  induction r with
  | nil => simp [EvMap.set, EvMap.del]
  | cons kv t ih =>
    obtain ⟨a, b⟩ := kv
    by_cases ha : a = k
    · simp [EvMap.lookup, ha] at h
    · simp [EvMap.lookup, ha] at h
      simp [EvMap.set, EvMap.del, ha, ih h]

theorem EvMap.del_set_set {α : Type} (r : EvMap α) (k1 k2 : String) (v1 v2 : α)
    (h12 : k1 ≠ k2) (h1 : EvMap.lookup r k1 = none) :
    EvMap.del (EvMap.set (EvMap.set r k1 v1) k2 v2) k1 = EvMap.set r k2 v2 := by
  induction r with
  | nil => simp [EvMap.set, EvMap.del, h12, Ne.symm h12]
  | cons kv t ih =>
    obtain ⟨a, b⟩ := kv
    by_cases ha : a = k1
    · simp [EvMap.lookup, ha] at h1
    · simp [EvMap.lookup, ha] at h1
      by_cases ha2 : a = k2
      · subst ha2
        simp [EvMap.set, EvMap.del, ha, Ne.symm h12,
          EvMap.del_set_self t k1 v1 h1]
      · simp [EvMap.set, EvMap.del, ha, ha2, ih h1]

theorem ObservablePoint.hasCb_applyWrite (p : ObservablePoint) (w : Write) :
    (ObservablePoint.applyWrite p w).1.hasCb = p.hasCb := by
  cases w <;>
    simp only [ObservablePoint.applyWrite, ObservablePoint.set,
      ObservablePoint.copy, ObservablePoint.setX, ObservablePoint.setY] <;>
    split_ifs <;> rfl

theorem ObservablePoint.applyWrite_count (p : ObservablePoint) (w : Write)
    (h : p.hasCb = true) :
    (ObservablePoint.applyWrite p w).2 =
      if (ObservablePoint.applyWrite p w).1.value ≠ p.value then 1 else 0 := by
  cases w <;>
    simp only [ObservablePoint.applyWrite, ObservablePoint.set,
      ObservablePoint.copy, ObservablePoint.setX, ObservablePoint.setY,
      ObservablePoint.value, h] <;>
    split_ifs <;>
    simp_all [Prod.ext_iff]

/-- C5: with a registered callback, a sequence of writes through
`set`/`copy`/the `x`/`y` setters invokes the callback exactly once per write
that changes the stored value and never for a write that leaves it equal. -/
theorem observablePoint_callback_per_change (p : ObservablePoint)
    (ws : List ObservablePoint.Write) (h : p.hasCb = true) :
    (ObservablePoint.runWrites p ws).2 = ObservablePoint.countChanges p ws := by
  induction ws generalizing p with
  | nil => rfl
  | cons w ws ih =>
    rcases hw : ObservablePoint.applyWrite p w with ⟨p', c⟩
    have hcb : p'.hasCb = true := by
      have := ObservablePoint.hasCb_applyWrite p w
      rw [hw] at this
      rw [this, h]
    have hc := ObservablePoint.applyWrite_count p w h
    rw [hw] at hc
    simp only [ObservablePoint.runWrites, ObservablePoint.countChanges, hw,
      ih p' hcb, hc]

/-- Witness for C5: `point.x = 5; point.x = 5` starting from `x = 0` fires
the callback exactly once in total. -/
theorem observablePoint_callback_per_change_witness :
    (⟨0, 0, true⟩ : ObservablePoint).hasCb = true ∧
    (ObservablePoint.runWrites ⟨0, 0, true⟩ [.setXOp 5, .setXOp 5]).2 =
      ObservablePoint.countChanges ⟨0, 0, true⟩ [.setXOp 5, .setXOp 5] ∧
    (ObservablePoint.runWrites ⟨0, 0, true⟩ [.setXOp 5, .setXOp 5]).2 = 1 :=
  ⟨rfl, observablePoint_callback_per_change _ _ rfl, by decide⟩

/-- C7: for every `ObservablePoint` and number `v`, `set(v)` with the second
argument omitted stores `x = v` and `y = v` (y mirrors x), while `set(v, 0)`
with the literal `0` stores `x = v` and `y = 0`. -/
theorem set_omitted_y_mirrors_x_explicit_zero_stays
    (p : ObservablePoint) (v : ℤ) :
    ((p.set (some v) none).1._x = v ∧ (p.set (some v) none).1._y = v) ∧
    ((p.set (some v) (some 0)).1._x = v ∧ (p.set (some v) (some 0)).1._y = 0) := by
  by_cases hv : v = 0 <;>
    simp only [ObservablePoint.set, hv, if_pos, if_neg, if_true, if_false,
      reduceIte] <;>
    split_ifs with h1 h2 <;>
    simp_all

theorem NodeCore.updateTransformWith_alpha (n p n' : NodeCore)
    (h : n.updateTransformWith p = some n') :
    n'.worldAlpha = n.alpha * p.worldAlpha ∧ n'.alpha = n.alpha := by
  cases hnt : n.transform with
  | none => simp [NodeCore.updateTransformWith, hnt] at h
  | some t =>
    cases hpt : p.transform with
    | none => simp [NodeCore.updateTransformWith, hnt, hpt] at h
    | some pt =>
      cases hb : n.bounds with
      | none => simp [NodeCore.updateTransformWith, hnt, hpt, hb] at h
      | some b =>
        simp only [NodeCore.updateTransformWith, hnt, hpt, hb,
          Option.bind_eq_bind', Option.some_bind, Option.some_inj] at h
        rw [← h]
        exact ⟨rfl, rfl⟩

theorem updatePassFrom_worldAlpha (chain : List NodeCore) :
    ∀ (p : NodeCore) (chain' : List NodeCore),
      updatePassFrom p chain = some chain' →
      ∀ (i : Nat) (hi : i < chain'.length),
        (chain'.get ⟨i, hi⟩).worldAlpha =
          p.worldAlpha * ((chain.take (i + 1)).map NodeCore.alpha).prod := by
  induction chain with
  | nil =>
    intro p chain' h i hi
    simp only [updatePassFrom, Option.some_inj] at h
    subst h
    simp at hi
  | cons n rest ih =>
    intro p chain' h i hi
    cases hn : n.updateTransformWith p with
    | none => simp [updatePassFrom, hn] at h
    | some n' =>
      cases hrest : updatePassFrom n' rest with
      | none => simp [updatePassFrom, hn, hrest] at h
      | some rest' =>
        simp only [updatePassFrom, hn, hrest, Option.bind_eq_bind',
          Option.some_bind, Option.some_inj] at h
        subst h
        obtain ⟨hwa, _⟩ := NodeCore.updateTransformWith_alpha n p n' hn
        cases i with
        | zero =>
          simp only [List.get, List.take, List.map, List.prod_cons,
            List.take_zero, List.map_nil, List.prod_nil, mul_one]
          rw [hwa, mul_comm]
        | succ j =>
          have hj : j < rest'.length := by simpa using hi
          have hrec := ih n' rest' hrest j hj
          simp only [List.get_cons_succ, hrec, hwa, List.take_succ_cons,
            List.map_cons, List.prod_cons]
          ring

/-- C6: after the top-down `updateTransform` pass over a root-first chain
(the parentless root through the temp-parent substitution), every node's
`worldAlpha` equals the product of the `alpha` values from the root down to
that node. -/
theorem updatePass_worldAlpha_product (chain chain' : List NodeCore)
    (h : updatePass chain = some chain') (i : Nat) (hi : i < chain'.length) :
    (chain'.get ⟨i, hi⟩).worldAlpha =
      ((chain.take (i + 1)).map NodeCore.alpha).prod := by
  have := updatePassFrom_worldAlpha chain NodeCore.new chain' h i hi
  simpa [NodeCore.new] using this

/-- Witness for C6: the 2, 3, 4 chain ends with `worldAlpha = 24` at
depth 2. -/
theorem updatePass_worldAlpha_product_witness :
    updatePass chainEx = some chainExOut ∧
    (chainExOut.get ⟨2, by decide⟩).worldAlpha =
      ((chainEx.take 3).map NodeCore.alpha).prod ∧
    (chainExOut.get ⟨2, by decide⟩).worldAlpha = 24 :=
  ⟨by decide, updatePass_worldAlpha_product chainEx chainExOut (by decide) 2 (by decide),
    by decide⟩

/-- C8: `removeListener(event)` with no handler argument leaves the listener
registry unchanged — both in the class override of `DisplayObject.js` and in
the legacy `$removeListener` of part_000. -/
theorem removeListener_without_handler_noop
    (r : Registry) (e : String) (cap : Option Bool) (once : Bool)
    (r' : P0.PRegistry) (ctx : Option Nat) (once' : Bool) :
    DOremoveListener r e none cap once = r ∧
    P0.dollarRemoveListener r' e none ctx once' = r' := by
  constructor
  · cases h : EvMap.lookup r e <;> simp [DOremoveListener, h]
  · cases h : EvMap.lookup r' e <;> simp [P0.dollarRemoveListener, h]

/-- C9: `setParent(c)` throws the `InvalidArgument` error exactly when `c`
is `null`/`undefined` or has no (truthy) `addChild`; on a valid container it
attaches the node through `addChild` and returns the container. -/
theorem setParent_invalid_argument_fails_fast (selfId : Nat) (k : ContainerArg) :
    setParent selfId none = .error "setParent: Argument must be a Container" ∧
    setParent selfId (some k) =
      (if k.hasAddChild then
        .ok { k with children := k.children ++ [selfId] }
      else .error "setParent: Argument must be a Container") := by
  refine ⟨rfl, ?_⟩
  by_cases h : k.hasAddChild <;> simp [setParent, ContainerArg.addChild, h]

/-- C10: `emit(event, payload)` with an object/function payload carrying no
`capture` field mutates the caller's payload to `capture = false` before
dispatch — even when no listener is registered — and the mutation persists
after `emit` returns. -/
theorem emit_mutates_payload_capture (r : Registry) (e : String) (st : Bool) :
    (DOemit r e (.obj none st)).payload = .obj (some false) st := by
  cases h : EvMap.lookup r e with
  | none => simp [DOemit, h]
  | some entry => cases entry <;> simp [DOemit, h]

theorem emitLoop_invoked (e : String) (a1 : Payload)
    (hstop : (a1.truthy && a1.stopImm) = false) (ls : List EE) :
    ∀ (r : Registry),
      (emitLoop r e a1 ls).2 =
        (ls.filter (fun l => matchesCapture l a1)).map EE.fn := by
  induction ls with
  | nil => intro r; rfl
  | cons l rest ih =>
    intro r
    have hstop' : ¬(a1.truthy = true ∧ a1.stopImm = true) := by
      rintro ⟨h1, h2⟩
      rw [h1, h2] at hstop
      simp at hstop
    by_cases hu : a1 = Payload.undef
    · subst hu
      simp [emitLoop, List.filter_cons, matchesCapture, Payload.captureField,
        Payload.truthy, Payload.stopImm, ih]
    · by_cases hml : matchesCapture l a1 = true <;>
        simp [emitLoop, hstop', List.filter_cons, hu, hml, ih]

/-- C1 (amended): `emit`'s phase filter invokes exactly the listeners whose
registered `capture` equals the payload's `capture` field — so a
capture-registered listener never fires for a `capture: false` payload and
vice versa, as claimed.  But an object payload carrying no capture field is
first defaulted to `capture = false`, so it reaches only the non-capture
listeners; both kinds of listeners fire together only when the payload is
absent (`undefined`) or a primitive value, which has no capture property. -/
theorem emit_capture_phase_filter (r : Registry) (e : String) (c : Bool) (st : Bool) :
    ((DOemit r e (.obj (some c) false)).invoked
        = ((Registry.snapshot r e).filter (fun l => l.capture = c)).map EE.fn) ∧
    ((DOemit r e (.obj none false)).invoked
        = ((Registry.snapshot r e).filter (fun l => l.capture = false)).map EE.fn) ∧
    ((DOemit r e .undef).invoked = (Registry.snapshot r e).map EE.fn) ∧
    ((DOemit r e (.prim st)).invoked = (Registry.snapshot r e).map EE.fn) := by
  refine ⟨?_, ?_, ?_, ?_⟩ <;>
  · cases h : EvMap.lookup r e with
    | none => simp [DOemit, Registry.snapshot, h]
    | some entry =>
      cases entry with
      | single l =>
        simp only [DOemit, Registry.snapshot, h, matchesCapture,
          Payload.captureField, List.filter_cons, List.map]
        split_ifs <;> simp_all
      | multi ls =>
        simp only [DOemit, Registry.snapshot, h]
        rw [emitLoop_invoked e _ (by simp [Payload.truthy, Payload.stopImm]) ls r]
        simp [matchesCapture, Payload.captureField]

/-- Counterexample for C1 as stated: with a capture listener (handler 1) and
a non-capture listener (handler 2) registered under `"evt"`, emitting an
object payload carrying no capture field invokes only handler 2 — the
capture listener does not fire, contradicting the claim that a payload with
no capture field reaches both kinds of listeners. -/
theorem emit_no_capture_field_skips_capture_listener :
    ((Registry.snapshot rCap "evt").any (fun l => (l.fn == 1) && l.capture)) = true ∧
    (DOemit rCap "evt" (.obj none false)).invoked = [2] := by
  decide

/-- Counterexample for C2 as stated: on a freshly created then destroyed
node, reading `worldTransform` throws and `getBounds()` throws (`none`
models the thrown `TypeError`), contradicting the claim that neither throws
and that `getBounds` returns a defined default rectangle. -/
theorem destroyed_node_reads_throw :
    (DObj.destroy DObj.new).readWorldTransform = none ∧
    (DObj.destroy DObj.new).getBounds false = none := by
  decide

/-- C2 (amended): `destroy()` is total and idempotent, so a second call does
not throw; but after `destroy()` reading `worldTransform` throws
(`transform` is `null`) and `getBounds()` throws whenever `allowGetBounds`
is `true` (its default, untouched by `destroy`), because `transform` and
`_bounds` have been nulled. -/
theorem destroy_idempotent_but_reads_throw (d : DObj)
    (h : d.core.allowGetBounds = true) :
    DObj.destroy (DObj.destroy d) = DObj.destroy d ∧
    (DObj.destroy d).readWorldTransform = none ∧
    ∀ sk, (DObj.destroy d).getBounds sk = none := by
  refine ⟨rfl, rfl, ?_⟩
  intro sk
  cases sk with
  | false =>
    cases htp : d.tempParent <;>
      simp [DObj.getBounds, DObj.destroy, DObj.getTempParent,
        NodeCore.updateTransformWith, h, htp]
  | true =>
    by_cases hid : d.core._boundsID = d.core._lastBoundsID <;>
      simp [DObj.getBounds, DObj.destroy, DObj.calculateBounds, h, hid]

/-- Witness for C2 (amended) at a freshly constructed node. -/
theorem destroy_idempotent_but_reads_throw_witness :
    DObj.new.core.allowGetBounds = true ∧
    DObj.destroy (DObj.destroy DObj.new) = DObj.destroy DObj.new ∧
    (DObj.destroy DObj.new).readWorldTransform = none ∧
    (DObj.destroy DObj.new).getBounds true = none :=
  ⟨rfl, (destroy_idempotent_but_reads_throw DObj.new rfl).1,
    (destroy_idempotent_but_reads_throw DObj.new rfl).2.1,
    (destroy_idempotent_but_reads_throw DObj.new rfl).2.2 true⟩

/-- Counterexample for C4 as stated: on a node whose `worldAlpha` (5)
differs from its `alpha` (2), `getLocalBounds()` returns with `worldAlpha`
recomputed to 2 (`alpha` times the temp parent's `worldAlpha` of 1) — an
observable side effect of the call that survives on the node's state,
contradicting the claim that none does. -/
theorem getLocalBounds_side_effect_survives :
    (DObj.getLocalBounds dEx4).map (fun p => p.1.core.worldAlpha) = some 2 ∧
    dEx4.core.worldAlpha = 5 := by
  decide

/-- C4 (amended): whenever `getLocalBounds` returns, the node's `parent` and
`transform` fields hold exactly the objects they held before the call — the
temporary detachment and transform substitution are fully undone — but
other observable state of the node (its `worldAlpha`, recomputed against
the identity temp parent, and the bounds bookkeeping counters) may change. -/
theorem getLocalBounds_restores_parent_and_transform (d d' : DObj) (rect : Rect)
    (h : d.getLocalBounds = some (d', rect)) :
    d'.ancestors = d.ancestors ∧ d'.core.transform = d.core.transform := by
  simp only [DObj.getLocalBounds, Option.bind_eq_bind', Option.bind_eq_some'] at h
  obtain ⟨tt, htt, h⟩ := h
  obtain ⟨res, hres, h⟩ := h
  simp only [Option.some_inj, Prod.mk.injEq] at h
  obtain ⟨hd', _⟩ := h
  rw [← hd']
  exact ⟨rfl, rfl⟩

/-- Witness for C4 (amended): `getLocalBounds` on `dEx4` returns, and the
returned node state carries `dEx4`'s original `parent` and `transform`. -/
theorem getLocalBounds_restores_parent_and_transform_witness :
    DObj.getLocalBounds dEx4 = some (dEx4Out, dEx4OutRect) ∧
    dEx4Out.ancestors = dEx4.ancestors ∧
    dEx4Out.core.transform = dEx4.core.transform :=
  ⟨by decide,
    (getLocalBounds_restores_parent_and_transform dEx4 dEx4Out dEx4OutRect (by decide)).1,
    (getLocalBounds_restores_parent_and_transform dEx4 dEx4Out dEx4OutRect (by decide)).2⟩

theorem fanout_on (r : P0.PRegistry) (p1 p2 : String) (fn : Nat)
    (cap : Option Bool) (pri : Option Int) (ctx : Nat) (hne : p1 ≠ p2)
    (h1 : EvMap.lookup r p1 = none) (h2 : EvMap.lookup r p2 = none) :
    (do let r1 ← P0.dollarOn r p1 fn cap pri ctx
        P0.dollarOn r1 p2 fn cap pri ctx)
      = some (P0.fanoutRegistry r p1 p2 fn ctx cap pri) := by
  have hl2 : EvMap.lookup
      (EvMap.set r p1 (.single (P0.mkListener fn ctx cap pri))) p2 = none := by
    rw [EvMap.lookup_set_ne _ _ _ _ (Ne.symm hne), h2]
  simp [P0.dollarOn, P0.fanoutRegistry, h1, hl2]

theorem fanout_pair_spec (cfg : P0.TouchCfg) (r : P0.PRegistry) (p1 p2 : String)
    (fn : Nat) (cap : Option Bool) (pri : Option Int) (ctx : Nat)
    (hne : p1 ≠ p2) (h1 : EvMap.lookup r p1 = none)
    (h2 : EvMap.lookup r p2 = none) :
    P0.snapshot (P0.fanoutRegistry r p1 p2 fn ctx cap pri) p1
        = [P0.mkListener fn ctx cap pri] ∧
    P0.snapshot (P0.fanoutRegistry r p1 p2 fn ctx cap pri) p2
        = [P0.mkListener fn ctx cap pri] ∧
    (P0.emit cfg (P0.fanoutRegistry r p1 p2 fn ctx cap pri) p1 .undef).invoked = [fn] ∧
    (P0.emit cfg (P0.fanoutRegistry r p1 p2 fn ctx cap pri) p2 .undef).invoked = [fn] ∧
    P0.dollarRemoveListener (P0.dollarRemoveListener
        (P0.fanoutRegistry r p1 p2 fn ctx cap pri) p1 (some fn) none false)
      p2 (some fn) none false = r := by
  have hl1 : EvMap.lookup (P0.fanoutRegistry r p1 p2 fn ctx cap pri) p1
      = some (.single (P0.mkListener fn ctx cap pri)) := by
    rw [P0.fanoutRegistry, EvMap.lookup_set_ne _ _ _ _ hne, EvMap.lookup_set_self]
  have hl2 : EvMap.lookup (P0.fanoutRegistry r p1 p2 fn ctx cap pri) p2
      = some (.single (P0.mkListener fn ctx cap pri)) := by
    rw [P0.fanoutRegistry, EvMap.lookup_set_self]
  have hk : P0.keepListener (P0.mkListener fn ctx cap pri) fn none false = false := by
    simp [P0.keepListener, P0.mkListener]
  have hdel : EvMap.del (P0.fanoutRegistry r p1 p2 fn ctx cap pri) p1
      = EvMap.set r p2 (.single (P0.mkListener fn ctx cap pri)) :=
    EvMap.del_set_set r p1 p2 _ _ hne h1
  have step1 : P0.dollarRemoveListener (P0.fanoutRegistry r p1 p2 fn ctx cap pri)
      p1 (some fn) none false
      = EvMap.set r p2 (.single (P0.mkListener fn ctx cap pri)) := by
    simp [P0.dollarRemoveListener, hl1, hk, hdel]
  have step2 : P0.dollarRemoveListener
      (EvMap.set r p2 (.single (P0.mkListener fn ctx cap pri))) p2
      (some fn) none false = r := by
    simp [P0.dollarRemoveListener, EvMap.lookup_set_self, hk,
      EvMap.del_set_self r p2 _ h2]
  refine ⟨?_, ?_, ?_, ?_, ?_⟩
  · simp [P0.snapshot, hl1]
  · simp [P0.snapshot, hl2]
  · simp [P0.emit, hl1, P0.mkListener, Payload.truthy]
  · simp [P0.emit, hl2, P0.mkListener, Payload.truthy]
  · rw [step1, step2]

/-- C3 (amended): registering a handler on a touch/gesture alias event name
when neither underlying primitive name is previously occupied registers it
under both primitive names with the same capture flag and priority;
emitting either primitive event then invokes the handler exactly once; and
`removeListener` on the alias removes it from both primitive names.  (A
registration over an occupied slot does not behave as the original claim
states: see the counterexample.) -/
theorem touch_alias_fanout (cfg : P0.TouchCfg) (r : P0.PRegistry)
    (ev p1 p2 : String) (fn : Nat) (cap : Option Bool) (pri : Option Int)
    (ctx : Nat) (hAlias : P0.aliasPair cfg ev = some (p1, p2))
    (h1 : EvMap.lookup r p1 = none) (h2 : EvMap.lookup r p2 = none) :
    (P0.onEvent cfg r ev fn cap pri ctx).isSome = true ∧
    (∀ r', P0.onEvent cfg r ev fn cap pri ctx = some r' →
      P0.snapshot r' p1 = [P0.mkListener fn ctx cap pri] ∧
      P0.snapshot r' p2 = [P0.mkListener fn ctx cap pri] ∧
      (P0.emit cfg r' p1 .undef).invoked = [fn] ∧
      (P0.emit cfg r' p2 .undef).invoked = [fn] ∧
      EvMap.lookup (P0.removeListener cfg r' ev (some fn) none false) p1 = none ∧
      EvMap.lookup (P0.removeListener cfg r' ev (some fn) none false) p2 = none) := by
  unfold P0.aliasPair at hAlias
  split_ifs at hAlias with hb hm he ht ho
  case _ =>
    rw [Option.some_inj, Prod.mk.injEq] at hAlias
    obtain ⟨hp1, hp2⟩ := hAlias
    subst hp1; subst hp2
    have hfan := fanout_on r "mousedown" "touchstart" fn cap pri ctx
      (by decide) h1 h2
    have hspec := fanout_pair_spec cfg r "mousedown" "touchstart" fn cap pri ctx
      (by decide) h1 h2
    constructor
    · unfold P0.onEvent
      rw [if_pos hb, hfan]
      rfl
    · intro r' hr'
      unfold P0.onEvent at hr'
      rw [if_pos hb, hfan] at hr'
      injection hr' with hr'
      subst hr'
      obtain ⟨s1, s2, e1, e2, hrem⟩ := hspec
      refine ⟨s1, s2, e1, e2, ?_, ?_⟩
      · unfold P0.removeListener
        rw [if_pos hb, hrem]
        exact h1
      · unfold P0.removeListener
        rw [if_pos hb, hrem]
        exact h2
  case _ =>
    rw [Option.some_inj, Prod.mk.injEq] at hAlias
    obtain ⟨hp1, hp2⟩ := hAlias
    subst hp1; subst hp2
    have hfan := fanout_on r "mousemove" "touchmove" fn cap pri ctx
      (by decide) h1 h2
    have hspec := fanout_pair_spec cfg r "mousemove" "touchmove" fn cap pri ctx
      (by decide) h1 h2
    constructor
    · unfold P0.onEvent
      rw [if_neg hb, if_pos hm, hfan]
      rfl
    · intro r' hr'
      unfold P0.onEvent at hr'
      rw [if_neg hb, if_pos hm, hfan] at hr'
      injection hr' with hr'
      subst hr'
      obtain ⟨s1, s2, e1, e2, hrem⟩ := hspec
      refine ⟨s1, s2, e1, e2, ?_, ?_⟩
      · unfold P0.removeListener
        rw [if_neg hb, if_pos hm, hrem]
        exact h1
      · unfold P0.removeListener
        rw [if_neg hb, if_pos hm, hrem]
        exact h2
  case _ =>
    rw [Option.some_inj, Prod.mk.injEq] at hAlias
    obtain ⟨hp1, hp2⟩ := hAlias
    subst hp1; subst hp2
    have hfan := fanout_on r "mouseup" "touchend" fn cap pri ctx
      (by decide) h1 h2
    have hspec := fanout_pair_spec cfg r "mouseup" "touchend" fn cap pri ctx
      (by decide) h1 h2
    constructor
    · unfold P0.onEvent
      rw [if_neg hb, if_neg hm, if_pos he, hfan]
      rfl
    · intro r' hr'
      unfold P0.onEvent at hr'
      rw [if_neg hb, if_neg hm, if_pos he, hfan] at hr'
      injection hr' with hr'
      subst hr'
      obtain ⟨s1, s2, e1, e2, hrem⟩ := hspec
      refine ⟨s1, s2, e1, e2, ?_, ?_⟩
      · unfold P0.removeListener
        rw [if_neg hb, if_neg hm, if_pos he, hrem]
        exact h1
      · unfold P0.removeListener
        rw [if_neg hb, if_neg hm, if_pos he, hrem]
        exact h2
  case _ =>
    rw [Option.some_inj, Prod.mk.injEq] at hAlias
    obtain ⟨hp1, hp2⟩ := hAlias
    subst hp1; subst hp2
    have hfan := fanout_on r "click" "tap" fn cap pri ctx (by decide) h1 h2
    have hspec := fanout_pair_spec cfg r "click" "tap" fn cap pri ctx
      (by decide) h1 h2
    constructor
    · unfold P0.onEvent
      rw [if_neg hb, if_neg hm, if_neg he, if_pos ht, hfan]
      rfl
    · intro r' hr'
      unfold P0.onEvent at hr'
      rw [if_neg hb, if_neg hm, if_neg he, if_pos ht, hfan] at hr'
      injection hr' with hr'
      subst hr'
      obtain ⟨s1, s2, e1, e2, hrem⟩ := hspec
      refine ⟨s1, s2, e1, e2, ?_, ?_⟩
      · unfold P0.removeListener
        rw [if_neg hb, if_neg hm, if_neg he, if_pos ht, hrem]
        exact h1
      · unfold P0.removeListener
        rw [if_neg hb, if_neg hm, if_neg he, if_pos ht, hrem]
        exact h2
  case _ =>
    rw [Option.some_inj, Prod.mk.injEq] at hAlias
    obtain ⟨hp1, hp2⟩ := hAlias
    subst hp1; subst hp2
    have hfan := fanout_on r "mouseupoutside" "touchendoutside" fn cap pri ctx
      (by decide) h1 h2
    have hspec := fanout_pair_spec cfg r "mouseupoutside" "touchendoutside"
      fn cap pri ctx (by decide) h1 h2
    constructor
    · unfold P0.onEvent
      rw [if_neg hb, if_neg hm, if_neg he, if_neg ht, if_pos ho, hfan]
      rfl
    · intro r' hr'
      unfold P0.onEvent at hr'
      rw [if_neg hb, if_neg hm, if_neg he, if_neg ht, if_pos ho, hfan] at hr'
      injection hr' with hr'
      subst hr'
      obtain ⟨s1, s2, e1, e2, hrem⟩ := hspec
      refine ⟨s1, s2, e1, e2, ?_, ?_⟩
      · unfold P0.removeListener
        rw [if_neg hb, if_neg hm, if_neg he, if_neg ht, if_pos ho, hrem]
        exact h1
      · unfold P0.removeListener
        rw [if_neg hb, if_neg hm, if_neg he, if_neg ht, if_pos ho, hrem]
        exact h2

/-- Counterexample for C3 as stated: with handler 7 already registered
under `"mousedown"` as that name's single listener, registering it on the
`TOUCH_BEGIN` alias does not add it under both primitive names — `$on`'s
unguarded `this._events[evt].sort(...)` throws a `TypeError` on the single
`EE` record (modelled as `none`), so the alias registration fails and
`"touchstart"` is left with no registration at all. -/
theorem touch_alias_fanout_throws_on_reregistration :
    EvMap.lookup rPre "mousedown"
      = some (.single (P0.mkListener 7 0 (some true) (some 3))) ∧
    P0.aliasPair cfgEx "pointerdown" = some ("mousedown", "touchstart") ∧
    P0.onEvent cfgEx rPre "pointerdown" 7 (some true) (some 3) 0 = none ∧
    EvMap.lookup rPre "touchstart" = none := by
  decide

/-- Witness for C3 (amended) at the `TAP` alias with handler 7, capture
`true`, priority 3, on an empty registry. -/
theorem touch_alias_fanout_witness :
    P0.onEvent cfgEx [] "tapAlias" 7 (some true) (some 3) 0 = some rTap ∧
    P0.snapshot rTap "click" = [P0.mkListener 7 0 (some true) (some 3)] ∧
    P0.snapshot rTap "tap" = [P0.mkListener 7 0 (some true) (some 3)] ∧
    (P0.emit cfgEx rTap "click" .undef).invoked = [7] ∧
    (P0.emit cfgEx rTap "tap" .undef).invoked = [7] ∧
    EvMap.lookup (P0.removeListener cfgEx rTap "tapAlias" (some 7) none false)
      "click" = none ∧
    EvMap.lookup (P0.removeListener cfgEx rTap "tapAlias" (some 7) none false)
      "tap" = none :=
  ⟨by decide,
    (touch_alias_fanout cfgEx [] "tapAlias" "click" "tap" 7 (some true) (some 3) 0
      (by decide) rfl rfl).2 rTap (by decide)⟩

end Pixi
